import Mathlib

/-!
# Verification of the CivitAI image fetcher core

A shallow embedding of `src/civitai.py` (class `CivitAIImageFetcher`).

Modelling conventions:

* The JSON body returned by `response.json()` is a `Json` value.
* Python exceptions are modelled by `Except PyErr`; a computation that
  returns `.error e` models an exception `e` propagating out of the
  corresponding Python code.  `requests.exceptions.RequestException`
  (connection errors and `raise_for_status` failures) is modelled
  separately, as the outcome of a network call (`NetResult.err`),
  because the `except` clauses in the source catch exactly that class.
* A network call is an oracle: each call pops the next `NetResult` from
  a scripted "world" list (an empty world behaves as a network error).
* `random.choice` is modelled by an oracle index `pick`, reduced modulo
  the batch length.
* `self.processed_urls` (a Python `set`) is a `List Json` with
  membership up to scalar equality and duplicate-free insertion.
  Unhashable values (lists, dicts) never enter the set because Python
  raises `TypeError` on the membership test first, which the embedding
  models in `pyMem`; hence set membership only ever compares scalars,
  and `pyEqScalar` is Python-faithful on every comparison that occurs.
* `time.sleep` and logging have no observable effect and are omitted.
-/

/-- A parsed JSON value, the result of `response.json()`. -/
inductive Json where
  | null
  | bool (b : Bool)
  | num (n : Int)
  | str (s : String)
  | arr (items : List Json)
  | obj (fields : List (String × Json))

/-- Python exceptions other than `requests.exceptions.RequestException`
(those are never caught by the source's `except` clauses). -/
inductive PyErr where
  | typeError
  | attributeError
  | keyError (k : String)
deriving DecidableEq

/-- First binding of a key in a JSON object's field list
(Python dict lookup; dict keys are unique). -/
def objLookup : List (String × Json) → String → Option Json
  | [], _ => none
  | (k, v) :: rest, key => if k = key then some v else objLookup rest key

/-- Substring test on character lists (Python `needle in haystack` for
strings). -/
def charsContains : List Char → List Char → Bool
  | hay, needle =>
    if needle.isPrefixOf hay then true
    else
      match hay with
      | [] => false
      | _ :: t => charsContains t needle

/-- Equality as used by Python `in` on the values that actually get
compared here: at least one side is always a hashable scalar (see
`pyMem`), where structural scalar equality agrees with Python `==`. -/
def pyEqScalar : Json → Json → Bool
  | .null, .null => true
  | .bool x, .bool y => x == y
  | .num x, .num y => x == y
  | .str x, .str y => x == y
  | _, _ => false

/-- Membership of a (scalar) value in the processed-URLs set. -/
def setMem (v : Json) (seen : List Json) : Bool :=
  seen.any (fun w => pyEqScalar v w)

/-- `set.add`: no-op when the value is already present. -/
def setAdd (seen : List Json) (v : Json) : List Json :=
  if setMem v seen then seen else v :: seen

/-- Python `key in data` for a string key (raises `TypeError` on
non-container values). -/
def pyIn (key : String) (v : Json) : Except PyErr Bool :=
  match v with
  | .obj fs => .ok (objLookup fs key).isSome
  | .arr xs => .ok (xs.any (fun x => pyEqScalar (Json.str key) x))
  | .str s => .ok (charsContains s.data key.data)
  | _ => .error .typeError

/-- Python `data[key]` for a string key: dict lookup (`KeyError` when
absent), `TypeError` on any other receiver. -/
def pyIndex (v : Json) (key : String) : Except PyErr Json :=
  match v with
  | .obj fs =>
    match objLookup fs key with
    | some w => .ok w
    | none => .error (.keyError key)
  | _ => .error .typeError

/-- Python `d.get(key, default)`: only dicts have `.get`
(`AttributeError` otherwise). -/
def pyDictGet (v : Json) (key : String) (default : Json) : Except PyErr Json :=
  match v with
  | .obj fs =>
    match objLookup fs key with
    | some w => .ok w
    | none => .ok default
  | _ => .error .attributeError

/-- Python `len(...)` (`TypeError` on non-sized values). -/
def pyLen (v : Json) : Except PyErr Int :=
  match v with
  | .arr xs => .ok xs.length
  | .str s => .ok s.length
  | .obj fs => .ok fs.length
  | _ => .error .typeError

/-- Python iteration `for item in v` (`TypeError` on non-iterables;
iterating a string yields its characters, iterating a dict its keys). -/
def pyIter (v : Json) : Except PyErr (List Json) :=
  match v with
  | .arr xs => .ok xs
  | .str s => .ok (s.data.map (fun c => Json.str (String.mk [c])))
  | .obj fs => .ok (fs.map (fun f => Json.str f.1))
  | _ => .error .typeError

/-- Python truthiness of a JSON value. -/
def pyTruthy : Json → Bool
  | .null => false
  | .bool b => b
  | .num n => !(n == 0)
  | .str s => !s.data.isEmpty
  | .arr xs => !xs.isEmpty
  | .obj fs => !fs.isEmpty

/-- Python `v in seen` for a set `seen`: `TypeError` for unhashable
`v` (lists, dicts), otherwise membership. -/
def pyMem (v : Json) (seen : List Json) : Except PyErr Bool :=
  match v with
  | .arr _ => .error .typeError
  | .obj _ => .error .typeError
  | _ => .ok (setMem v seen)

/-- Numeric view for comparisons (Python `bool` is an `int`). -/
def jsonToIntQ : Json → Option Int
  | .num n => some n
  | .bool b => some (if b then 1 else 0)
  | _ => none

/-- Python `a >= b` (`TypeError` on non-numeric operands). -/
def pyGE (a b : Json) : Except PyErr Bool :=
  match jsonToIntQ a, jsonToIntQ b with
  | some x, some y => .ok (decide (x ≥ y))
  | _, _ => .error .typeError

/-- `MAX_RETRIES` (civitai.py line 22). -/
def MAX_RETRIES : Nat := 3

/-- The mutable per-fetcher state set up in `__init__`
(civitai.py lines 38-40).  The configuration fields
(`civitai_api_url`, `rest_endpoint`, `nsfw_filter`, `batch_size`) are
immutable and only feed the request parameters, which the network
oracle abstracts; they are omitted. -/
structure State where
  current_page : Int
  has_more_pages : Bool
  processed_urls : List Json

/-- The state after `__init__`: `current_page = 1`,
`has_more_pages = True`, `processed_urls = set()`. -/
def initialState : State := ⟨1, true, []⟩

/-- Outcome of one `requests.get` (plus `raise_for_status`): either a
`RequestException`, or a successfully parsed JSON body. -/
inductive NetResult where
  | err
  | ok (body : Json)

/-- Pop the next scripted network outcome; an exhausted script behaves
as a network error. -/
def netCall : List NetResult → NetResult × List NetResult
  | [] => (.err, [])
  | r :: w => (r, w)

/-- civitai.py lines 62-74: the pagination-update block of
`fetch_images_batch`, run on a successful response.

```
if 'metadata' in data:
    metadata = data['metadata']
    total_pages = metadata.get('totalPages', 1)
    if self.current_page >= total_pages:
        self.current_page = 1
        self.has_more_pages = False
    else:
        self.has_more_pages = True
        self.current_page += 1
``` -/
def updatePagination (s : State) (body : Json) : Except PyErr State := do
  let hasMeta ← pyIn "metadata" body
  if hasMeta then do
    let metadata ← pyIndex body "metadata"
    let total_pages ← pyDictGet metadata "totalPages" (Json.num 1)
    let ge ← pyGE (Json.num s.current_page) total_pages
    if ge then
      pure { s with current_page := 1, has_more_pages := false }
    else
      pure { s with has_more_pages := true, current_page := s.current_page + 1 }
  else
    pure s

/-- civitai.py lines 78-82: the filtering loop of `fetch_images_batch`.

```
for item in data['items']:
    url = item.get('url')
    if url and url not in self.processed_urls:
        image_urls.append(url)
``` -/
def extractUrls (seen : List Json) : List Json → Except PyErr (List Json)
  | [] => .ok []
  | item :: rest => do
    let url ← pyDictGet item "url" Json.null
    if pyTruthy url then do
      let m ← pyMem url seen
      let tail ← extractUrls seen rest
      pure (if m then tail else url :: tail)
    else
      extractUrls seen rest

/-- civitai.py line 76: the short-circuit condition
`'items' in data and len(data['items']) > 0`. -/
def itemsCond (body : Json) : Except PyErr Bool := do
  let hasItems ← pyIn "items" body
  if hasItems then do
    let items ← pyIndex body "items"
    let n ← pyLen items
    pure (decide (n > 0))
  else
    pure false

/-- civitai.py lines 59-95: the body of one successful attempt of
`fetch_images_batch` (everything inside the `try` after
`raise_for_status`), threading the fetcher state explicitly.  Both the
`return image_urls` statement and the fall-through `return []` are the
normal result; a `.error` models a Python exception not caught by the
`except requests.exceptions.RequestException` clause. -/
def fetchAttempt (s : State) (body : Json) : Except PyErr (State × List Json) := do
  let s1 ← updatePagination s body
  let cond ← itemsCond body
  if cond then do
    let items ← pyIndex body "items"
    let itemList ← pyIter items
    let urls ← extractUrls s1.processed_urls itemList
    pure (s1, urls)
  else
    pure ({ s1 with has_more_pages := false, current_page := 1 }, [])

/-- civitai.py lines 53-102: the retry loop of `fetch_images_batch`.
Each iteration performs one network call; a `RequestException` outcome
is caught (sleep, retry), any other exception propagates; falling off
the loop returns `[]`. -/
def fetchLoop (s : State) (w : List NetResult) :
    Nat → Except PyErr (State × List Json × List NetResult)
  | 0 => .ok (s, [], w)
  | n + 1 =>
    match netCall w with
    | (.err, w1) => fetchLoop s w1 n
    | (.ok body, w1) =>
      match fetchAttempt s body with
      | .error e => .error e
      | .ok (s1, urls) => .ok (s1, urls, w1)

/-- `fetch_images_batch` (civitai.py lines 43-102). -/
def fetchImagesBatch (s : State) (w : List NetResult) :
    Except PyErr (State × List Json × List NetResult) :=
  fetchLoop s w MAX_RETRIES

/-- civitai.py lines 108-121: the retry loop of `send_to_endpoint`.
On the first successful attempt the URL is added to
`self.processed_urls` (line 114) and `True` is returned; after
`MAX_RETRIES` failures, `False`.  No other exception source exists in
the loop body, so the result needs no `Except`. -/
def sendLoop (s : State) (url : Json) (w : List NetResult) :
    Nat → State × Bool × List NetResult
  | 0 => (s, false, w)
  | n + 1 =>
    match netCall w with
    | (.err, w1) => sendLoop s url w1 n
    | (.ok _, w1) =>
      ({ s with processed_urls := setAdd s.processed_urls url }, true, w1)

/-- `send_to_endpoint` (civitai.py lines 104-121). -/
def sendToEndpoint (s : State) (url : Json) (w : List NetResult) :
    State × Bool × List NetResult :=
  sendLoop s url w MAX_RETRIES

/-- civitai.py lines 127-134: the start-of-cycle reset/eviction block
of `process`.

```
if not self.has_more_pages:
    self.current_page = 1
    self.has_more_pages = True
    if len(self.processed_urls) > 1000:
        self.processed_urls.clear()
``` -/
def evictionStep (s : State) : State :=
  if !s.has_more_pages then
    if s.processed_urls.length > 1000 then
      { current_page := 1, has_more_pages := true, processed_urls := [] }
    else
      { s with current_page := 1, has_more_pages := true }
  else
    s

/-- Observable outcome of one `process()` invocation: the final state,
the remaining network script, the batch returned by the fetch, the
URLs passed to `send_to_endpoint` (in order), and the send result when
a send happened. -/
structure ProcResult where
  state : State
  world : List NetResult
  batch : List Json
  forwarded : List Json
  sendOk : Option Bool

/-- `process` (civitai.py lines 123-151).  `pick` is the
`random.choice` oracle, reduced modulo the batch length. -/
def process (s : State) (pick : Nat) (w : List NetResult) :
    Except PyErr ProcResult :=
  match fetchImagesBatch (evictionStep s) w with
  | .error e => .error e
  | .ok (s1, urls, w1) =>
    if urls.isEmpty then
      .ok ⟨s1, w1, urls, [], none⟩
    else
      .ok ⟨(sendToEndpoint s1 (urls.getD (pick % urls.length) Json.null) w1).1,
        (sendToEndpoint s1 (urls.getD (pick % urls.length) Json.null) w1).2.2,
        urls, [urls.getD (pick % urls.length) Json.null],
        some (sendToEndpoint s1
          (urls.getD (pick % urls.length) Json.null) w1).2.1⟩

/-- Oracle inputs for one scheduled `process()` invocation. -/
structure CycleInput where
  pick : Nat
  world : List NetResult

/-- A sequence of `process()` invocations, as driven by the external
scheduler (civitai.py lines 161-172). -/
def runCycles (s : State) : List CycleInput → Except PyErr State
  | [] => .ok s
  | c :: rest =>
    match process s c.pick c.world with
    | .error e => .error e
    | .ok r => runCycles r.state rest

/-- Hashable scalars: exactly the values whose set-membership test
does not raise. -/
def isScalar : Json → Bool
  | .arr _ => false
  | .obj _ => false
  | _ => true

/-- An item the filtering loop (civitai.py lines 79-82) drops: its
`url` field evaluates without error to a value that is falsy or
already in the seen set. -/
def itemFilteredOut (seen : List Json) (item : Json) : Prop :=
  ∃ u, pyDictGet item "url" Json.null = .ok u ∧
    (pyTruthy u = false ∨ pyMem u seen = .ok true)

/-- A well-shaped `url` field value: a string or `null`. -/
def wfUrl : Option Json → Bool
  | none => true
  | some (.str _) => true
  | some .null => true
  | some _ => false

/-- A well-shaped element of the `items` array: an object whose `url`
field, if present, is a string or `null`. -/
def wfItem : Json → Bool
  | .obj fs => wfUrl (objLookup fs "url")
  | _ => false

/-- A well-shaped `metadata` value: an object whose `totalPages`
field, if present, is a number. -/
def wfMeta : Json → Bool
  | .obj fs =>
    match objLookup fs "totalPages" with
    | none => true
    | some (.num _) => true
    | some _ => false
  | _ => false

/-- A well-shaped `items` value: an array of well-shaped items. -/
def wfItemsVal : Json → Bool
  | .arr xs => xs.all wfItem
  | _ => false

/-- A well-shaped response body: a JSON object whose optional
`metadata` and `items` fields have the shapes the code expects.
Processing such a body raises no exception. -/
def wfBody : Json → Bool
  | .obj fs =>
    (match objLookup fs "metadata" with
     | none => true
     | some m => wfMeta m) &&
    (match objLookup fs "items" with
     | none => true
     | some v => wfItemsVal v)
  | _ => false

/-! ### A concrete long execution

Driver script for the counterexamples to C4 and C5: cycle `k` serves a
fresh URL (`k+1` repetitions of the letter u) on a 5000-page listing,
so `has_more_pages` stays true while the seen set grows by one URL per
cycle. -/

/-- The distinct URL served in cycle `k`. -/
def urlFor (k : Nat) : Json := .str (String.mk (List.replicate (k + 1) 'u'))

/-- The response body served in cycle `k` of the driver script. -/
def bodyFor (k : Nat) : Json :=
  .obj [("metadata", .obj [("totalPages", .num 5000)]),
    ("items", .arr [.obj [("url", urlFor k)]])]

/-- Oracle inputs for cycle `k`: one successful fetch response and one
successful send response. -/
def cycleFor (k : Nat) : CycleInput := ⟨0, [.ok (bodyFor k), .ok .null]⟩

/-- The seen set after cycles `0 .. k-1`: the `k` served URLs, newest
first. -/
def seenFor (k : Nat) : List Json := ((List.range' 0 k).reverse).map urlFor

/-- The fetcher state after cycles `0 .. k-1` of the driver script. -/
def stateFor (k : Nat) : State := ⟨(k : Int) + 1, true, seenFor k⟩

/-- 1001 cycles of the driver script. -/
def c4Script : List CycleInput := (List.range' 0 1001).map cycleFor

/-- A response body on a 1-page listing, carrying the fresh URL of
cycle `k`: it makes the pagination wrap (`current_page >= totalPages`),
clearing `has_more_pages`. -/
def bodyWrapFor (k : Nat) : Json :=
  .obj [("metadata", .obj [("totalPages", .num 1)]),
    ("items", .arr [.obj [("url", urlFor k)]])]

/-- Oracle inputs for the wrap-around cycle after `c4Script`. -/
def cycleWrap : CycleInput := ⟨0, [.ok (bodyWrapFor 1001), .ok .null]⟩

/-- The fetcher state after `c4Script` followed by `cycleWrap`:
1002 processed URLs and `has_more_pages = False`. -/
def stateWrapped : State := ⟨1, false, urlFor 1001 :: seenFor 1001⟩

/-- A successful response whose `items` array is empty. -/
def bodyEmptyItems : Json := .obj [("items", .arr [])]

/-! ## Basic lemmas about the embedding -/

theorem okBind {α β : Type} {a : α} {f : α → Except PyErr β} :
    (Except.ok a >>= f) = f a := rfl

theorem errBind {α β : Type} {e : PyErr} {f : α → Except PyErr β} :
    ((Except.error e : Except PyErr α) >>= f) = Except.error e := rfl

/-- Inversion for `Except` bind ending in `.ok`. -/
theorem bindEqOk {α β : Type} {x : Except PyErr α} {f : α → Except PyErr β}
    {b : β} (h : x >>= f = .ok b) : ∃ a, x = .ok a ∧ f a = .ok b := by
  cases x with
  | error e => exact absurd h (by simp [errBind])
  | ok a => exact ⟨a, rfl, h⟩

/-- A successful membership test means the value was hashable and the
result is plain set membership. -/
theorem pyMem_ok {v : Json} {seen : List Json} {m : Bool}
    (h : pyMem v seen = .ok m) : m = setMem v seen := by
  cases v <;> simp [pyMem] at h <;> exact h.symm

/-- The pagination-update block never touches `processed_urls`. -/
theorem updatePagination_processed {s : State} {body : Json} {s1 : State}
    (h : updatePagination s body = .ok s1) :
    s1.processed_urls = s.processed_urls := by
  unfold updatePagination at h
  obtain ⟨hm, hm1, hm2⟩ := bindEqOk h
  split at hm2
  · obtain ⟨md, hmd1, hmd2⟩ := bindEqOk hm2
    obtain ⟨tp, htp1, htp2⟩ := bindEqOk hmd2
    obtain ⟨ge, hge1, hge2⟩ := bindEqOk htp2
    split at hge2 <;> (cases hge2; rfl)
  · cases hm2; rfl

/-- One successful fetch attempt never touches `processed_urls`. -/
theorem fetchAttempt_processed {s : State} {body : Json} {s1 : State}
    {urls : List Json} (h : fetchAttempt s body = .ok (s1, urls)) :
    s1.processed_urls = s.processed_urls := by
  unfold fetchAttempt at h
  obtain ⟨sa, ha1, ha2⟩ := bindEqOk h
  obtain ⟨cond, hc1, hc2⟩ := bindEqOk ha2
  have hsa := updatePagination_processed ha1
  split at hc2
  · obtain ⟨items, hit1, hit2⟩ := bindEqOk hc2
    obtain ⟨itemList, hil1, hil2⟩ := bindEqOk hit2
    obtain ⟨us, hu1, hu2⟩ := bindEqOk hil2
    cases hu2
    exact hsa
  · cases hc2
    exact hsa

theorem fetchLoop_zero (s : State) (w : List NetResult) :
    fetchLoop s w 0 = .ok (s, [], w) := rfl

theorem fetchLoop_nil (s : State) (n : Nat) :
    fetchLoop s [] (n + 1) = fetchLoop s [] n := rfl

theorem fetchLoop_cons_err (s : State) (w : List NetResult) (n : Nat) :
    fetchLoop s (NetResult.err :: w) (n + 1) = fetchLoop s w n := rfl

theorem fetchLoop_cons_ok (s : State) (body : Json) (w : List NetResult)
    (n : Nat) :
    fetchLoop s (NetResult.ok body :: w) (n + 1) =
      match fetchAttempt s body with
      | .error e => .error e
      | .ok (s1, urls) => .ok (s1, urls, w) := rfl

/-- The whole retry loop of `fetch_images_batch` never touches
`processed_urls`. -/
theorem fetchLoop_processed {n : Nat} {s : State} {w : List NetResult}
    {s1 : State} {urls : List Json} {w1 : List NetResult}
    (h : fetchLoop s w n = .ok (s1, urls, w1)) :
    s1.processed_urls = s.processed_urls := by
  induction n generalizing w with
  | zero => cases h; rfl
  | succ n ih =>
    cases w with
    | nil => exact ih h
    | cons r w2 =>
      cases r with
      | err => exact ih h
      | ok body =>
        rw [fetchLoop_cons_ok] at h
        cases hfa : fetchAttempt s body with
        | error e => rw [hfa] at h; cases h
        | ok out =>
          rw [hfa] at h
          obtain ⟨sx, urlsx⟩ := out
          cases h
          exact fetchAttempt_processed hfa

/-- The eviction step either leaves the seen set alone or clears it. -/
theorem evictionStep_processed (s : State) :
    (evictionStep s).processed_urls = s.processed_urls ∨
      (evictionStep s).processed_urls = [] := by
  unfold evictionStep
  split
  · split
    · exact Or.inr rfl
    · exact Or.inl rfl
  · exact Or.inl rfl

theorem sendLoop_zero (s : State) (u : Json) (w : List NetResult) :
    sendLoop s u w 0 = (s, false, w) := rfl

theorem sendLoop_nil (s : State) (u : Json) (n : Nat) :
    sendLoop s u [] (n + 1) = sendLoop s u [] n := rfl

theorem sendLoop_cons_err (s : State) (u : Json) (w : List NetResult)
    (n : Nat) :
    sendLoop s u (NetResult.err :: w) (n + 1) = sendLoop s u w n := rfl

theorem sendLoop_cons_ok (s : State) (u : Json) (body : Json)
    (w : List NetResult) (n : Nat) :
    sendLoop s u (NetResult.ok body :: w) (n + 1) =
      ({ s with processed_urls := setAdd s.processed_urls u }, true, w) := rfl

/-- If the send loop reports failure, the state it returns is the state
it was given. -/
theorem sendLoop_false {n : Nat} {s : State} {u : Json}
    {w : List NetResult} (h : (sendLoop s u w n).2.1 = false) :
    (sendLoop s u w n).1 = s := by
  induction n generalizing w with
  | zero => rfl
  | succ n ih =>
    cases w with
    | nil => exact ih h
    | cons r w1 =>
      cases r with
      | err => exact ih h
      | ok body => simp [sendLoop, netCall] at h

/-- If the send loop reports success, the returned state is the given
state with the URL added to `processed_urls` (line 114). -/
theorem sendLoop_true {n : Nat} {s : State} {u : Json}
    {w : List NetResult} (h : (sendLoop s u w n).2.1 = true) :
    (sendLoop s u w n).1 =
      { s with processed_urls := setAdd s.processed_urls u } := by
  induction n generalizing w with
  | zero => simp [sendLoop] at h
  | succ n ih =>
    cases w with
    | nil => exact ih h
    | cons r w1 =>
      cases r with
      | err => exact ih h
      | ok body => rfl

/-! ## C3 -/

/-- C3: when all `MAX_RETRIES` network attempts raise a
network/HTTP error (`requests.exceptions.RequestException`),
`fetch_images_batch` returns the empty sequence with the state
unchanged, and `send_to_endpoint` returns `False` with the state
unchanged.  Both results are ordinary return values (`.ok` / a pure
pair): in the embedding an escaping exception would be an `.error`,
so neither operation lets one propagate. -/
theorem c3_retries_exhausted (s : State) (u : Json) (rest : List NetResult) :
    fetchImagesBatch s (List.replicate MAX_RETRIES NetResult.err ++ rest) =
        .ok (s, [], rest) ∧
      sendToEndpoint s u (List.replicate MAX_RETRIES NetResult.err ++ rest) =
        (s, false, rest) :=
  ⟨rfl, rfl⟩

/-! ## C10 -/

/-- C10: whenever `send_to_endpoint` returns `False` (all retry
attempts failed), the fetcher state is completely unchanged: the
attempted URL was not added to `processed_urls`, and `current_page`
and `has_more_pages` keep their prior values. -/
theorem c10_send_failure_state_unchanged (s : State) (u : Json)
    (w : List NetResult) (h : (sendToEndpoint s u w).2.1 = false) :
    (sendToEndpoint s u w).1 = s :=
  sendLoop_false h

/-- Witness for C10 at a concrete input: with an empty network script
every attempt fails, the send reports `False`, and the state is
unchanged. -/
theorem c10_witness :
    (sendToEndpoint initialState (Json.str "a") []).2.1 = false ∧
      (sendToEndpoint initialState (Json.str "a") []).1 = initialState :=
  ⟨rfl, c10_send_failure_state_unchanged initialState (Json.str "a") [] rfl⟩

/-! ## C2 -/

/-- C2: the pagination-update block (civitai.py lines 62-74), run on
every successful response, behaves as specified whenever the response
metadata carries a total-page count: if `current_page >= totalPages`
the page resets to 1 and `has_more_pages` clears, else the page
advances by 1 and `has_more_pages` is set.  (When the same response
then turns out to carry no items, the separate no-items branch, lines
89-92, overwrites this state afterwards; that behaviour is the subject
of C7 and C9.) -/
theorem c2_pagination_update (s : State) (body md : Json) (tp : Int)
    (s1 : State)
    (hmeta : pyIn "metadata" body = .ok true)
    (hmd : pyIndex body "metadata" = .ok md)
    (htp : pyDictGet md "totalPages" (Json.num 1) = .ok (Json.num tp))
    (hup : updatePagination s body = .ok s1) :
    (s.current_page ≥ tp → s1.current_page = 1 ∧ s1.has_more_pages = false) ∧
      (s.current_page < tp →
        s1.current_page = s.current_page + 1 ∧ s1.has_more_pages = true) := by
  unfold updatePagination at hup
  rw [hmeta, okBind] at hup
  simp only [if_pos] at hup
  rw [hmd, okBind, htp, okBind] at hup
  rw [show pyGE (Json.num s.current_page) (Json.num tp) =
        .ok (decide (s.current_page ≥ tp)) from rfl, okBind] at hup
  by_cases hge : s.current_page ≥ tp
  · rw [if_pos (by simpa using hge)] at hup
    cases hup
    exact ⟨fun _ => ⟨rfl, rfl⟩, fun hlt => absurd hge (by omega)⟩
  · rw [if_neg (by simpa using hge)] at hup
    cases hup
    exact ⟨fun hge2 => absurd hge2 hge, fun _ => ⟨rfl, rfl⟩⟩

/-- Witness for C2 at the spec's own scenario: `current_page = 5`,
`metadata.totalPages = 5` resets the page to 1 and clears the flag. -/
theorem c2_witness :
    ((⟨5, true, []⟩ : State).current_page ≥ 5 →
        (⟨1, false, []⟩ : State).current_page = 1 ∧
          (⟨1, false, []⟩ : State).has_more_pages = false) ∧
      ((⟨5, true, []⟩ : State).current_page < 5 →
        (⟨1, false, []⟩ : State).current_page =
            (⟨5, true, []⟩ : State).current_page + 1 ∧
          (⟨1, false, []⟩ : State).has_more_pages = true) :=
  c2_pagination_update ⟨5, true, []⟩
    (Json.obj [("metadata", Json.obj [("totalPages", Json.num 5)])])
    (Json.obj [("totalPages", Json.num 5)]) 5 ⟨1, false, []⟩ rfl rfl rfl rfl

/-! ## C7 -/

/-- The compound condition of civitai.py line 76 evaluates to `false`
when `items` is absent or maps to an empty array. -/
theorem itemsCond_false {body : Json} {cond : Bool}
    (hc : itemsCond body = .ok cond)
    (hitems : pyIn "items" body = .ok false ∨
      pyIndex body "items" = .ok (Json.arr [])) :
    cond = false := by
  unfold itemsCond at hc
  obtain ⟨hi, hin, hc2⟩ := bindEqOk hc
  cases hi with
  | false => cases hc2; rfl
  | true =>
    cases hitems with
    | inl h0 => rw [hin] at h0; cases h0
    | inr h0 =>
      simp only [if_pos] at hc2
      rw [h0, okBind] at hc2
      rw [show pyLen (Json.arr []) = .ok 0 from rfl, okBind] at hc2
      cases hc2
      rfl

/-- C7: a successful response whose `items` array is missing or empty
is a soft failure: `fetch_images_batch` sets `current_page = 1`,
clears `has_more_pages` (civitai.py lines 89-92), leaves the seen set
alone, and returns the empty sequence instead of raising. -/
theorem c7_no_items_soft_failure (s : State) (body : Json) (s1 : State)
    (urls : List Json)
    (h : fetchAttempt s body = .ok (s1, urls))
    (hitems : pyIn "items" body = .ok false ∨
      pyIndex body "items" = .ok (Json.arr [])) :
    s1.current_page = 1 ∧ s1.has_more_pages = false ∧ urls = [] ∧
      s1.processed_urls = s.processed_urls := by
  unfold fetchAttempt at h
  obtain ⟨sa, hup, h2⟩ := bindEqOk h
  obtain ⟨cond, hcond, h3⟩ := bindEqOk h2
  have hcf := itemsCond_false hcond hitems
  subst hcf
  simp only [Bool.false_eq_true, if_false] at h3
  have hp := updatePagination_processed hup
  cases h3
  exact ⟨rfl, rfl, rfl, hp⟩

/-- Witness for C7 at a concrete input: a response with metadata
(`totalPages = 7`, page advances first) but an empty `items` array
ends with `current_page = 1`, `has_more_pages = False`, no URLs, and
an untouched seen set. -/
theorem c7_witness :
    (⟨1, false, [Json.str "a"]⟩ : State).current_page = 1 ∧
      (⟨1, false, [Json.str "a"]⟩ : State).has_more_pages = false ∧
      ([] : List Json) = [] ∧
      (⟨1, false, [Json.str "a"]⟩ : State).processed_urls =
        (⟨3, true, [Json.str "a"]⟩ : State).processed_urls :=
  c7_no_items_soft_failure ⟨3, true, [Json.str "a"]⟩
    (Json.obj [("metadata", Json.obj [("totalPages", Json.num 7)]),
      ("items", Json.arr [])])
    ⟨1, false, [Json.str "a"]⟩ [] rfl (Or.inr rfl)

/-! ## C9 -/

/-- If every item of the list is dropped by the filter, the filtering
loop returns the empty list (without error). -/
theorem extractUrls_allFiltered {seen : List Json} :
    ∀ items : List Json, (∀ i ∈ items, itemFilteredOut seen i) →
      extractUrls seen items = .ok [] := by
  intro items
  induction items with
  | nil => intro _; rfl
  | cons item rest ih =>
    intro hf
    obtain ⟨u, hget, hdrop⟩ := hf item (List.mem_cons_self item rest)
    have hrest := ih (fun i hi => hf i (List.mem_cons_of_mem item hi))
    unfold extractUrls
    rw [hget, okBind]
    cases ht : pyTruthy u with
    | false => simp only [Bool.false_eq_true, if_false]; exact hrest
    | true =>
      simp only [if_pos]
      have hm : pyMem u seen = .ok true := by
        cases hdrop with
        | inl h0 => rw [ht] at h0; cases h0
        | inr h0 => exact h0
      rw [hm, okBind, hrest, okBind]
      rfl

/-- C9: on a successful response with a non-empty `items` array in
which every item is filtered out (url falsy or already seen),
`fetch_images_batch` returns the empty sequence, and the no-items
reset does NOT fire: the final state is exactly the state `s1`
produced by the pagination-update block, so an empty returned batch
does not imply the pagination was reset. -/
theorem c9_all_filtered_keeps_pagination (s : State) (body : Json)
    (s1 : State) (items : List Json)
    (hup : updatePagination s body = .ok s1)
    (hin : pyIn "items" body = .ok true)
    (hidx : pyIndex body "items" = .ok (Json.arr items))
    (hne : items ≠ [])
    (hf : ∀ i ∈ items, itemFilteredOut s.processed_urls i) :
    fetchAttempt s body = .ok (s1, []) := by
  unfold fetchAttempt
  rw [hup, okBind]
  have hcond : itemsCond body = .ok true := by
    unfold itemsCond
    rw [hin, okBind]
    simp only [if_pos]
    rw [hidx, okBind]
    rw [show pyLen (Json.arr items) = .ok (items.length : Int) from rfl, okBind]
    have : decide ((items.length : Int) > 0) = true := by
      have := List.length_pos.mpr hne
      simp
      omega
    rw [this]
    rfl
  rw [hcond, okBind]
  simp only [if_pos]
  rw [hidx, okBind]
  rw [show pyIter (Json.arr items) = .ok items from rfl, okBind]
  rw [updatePagination_processed hup, extractUrls_allFiltered items hf, okBind]
  rfl

/-- Witness for C9 at a concrete input: two items, one already seen
and one with an empty url, are both dropped; the fetch returns `[]`
while the state keeps the ordinary pagination advance
(page 1 → 2, flag still set). -/
theorem c9_witness :
    fetchAttempt ⟨1, true, [Json.str "a"]⟩
        (Json.obj [("metadata", Json.obj [("totalPages", Json.num 5)]),
          ("items", Json.arr [Json.obj [("url", Json.str "a")],
            Json.obj [("url", Json.str "")]])]) =
      .ok (⟨2, true, [Json.str "a"]⟩, []) :=
  c9_all_filtered_keeps_pagination ⟨1, true, [Json.str "a"]⟩
    (Json.obj [("metadata", Json.obj [("totalPages", Json.num 5)]),
      ("items", Json.arr [Json.obj [("url", Json.str "a")],
        Json.obj [("url", Json.str "")]])])
    ⟨2, true, [Json.str "a"]⟩
    [Json.obj [("url", Json.str "a")], Json.obj [("url", Json.str "")]]
    rfl rfl rfl (by simp)
    (by
      intro i hi
      simp only [List.mem_cons, List.not_mem_nil, or_false] at hi
      rcases hi with rfl | rfl
      · exact ⟨Json.str "a", rfl, Or.inr rfl⟩
      · exact ⟨Json.str "", rfl, Or.inl rfl⟩)

/-! ## C1 -/

/-- A successful membership test also certifies the value is a
hashable scalar. -/
theorem pyMem_scalar {v : Json} {seen : List Json} {m : Bool}
    (h : pyMem v seen = .ok m) : isScalar v = true := by
  cases v <;> first | rfl | simp [pyMem] at h

/-- Every URL the filtering loop keeps is truthy, absent from the seen
set it was filtered against, and a hashable scalar. -/
theorem extractUrls_sound {seen : List Json} :
    ∀ {items urls : List Json}, extractUrls seen items = .ok urls →
      ∀ u ∈ urls,
        pyTruthy u = true ∧ setMem u seen = false ∧ isScalar u = true := by
  intro items
  induction items with
  | nil =>
    intro urls h u hu
    cases h
    cases hu
  | cons item rest ih =>
    intro urls h u hu
    unfold extractUrls at h
    obtain ⟨url0, hget, h2⟩ := bindEqOk h
    cases ht : pyTruthy url0 with
    | false =>
      rw [ht] at h2
      simp only [Bool.false_eq_true, if_false] at h2
      exact ih h2 u hu
    | true =>
      rw [ht] at h2
      simp only [if_pos] at h2
      obtain ⟨m, hm, h3⟩ := bindEqOk h2
      obtain ⟨tail, htail, h4⟩ := bindEqOk h3
      have hms := pyMem_ok hm
      have hsc := pyMem_scalar hm
      cases m with
      | true =>
        simp only [if_pos] at h4
        cases h4
        exact ih htail u hu
      | false =>
        simp only [Bool.false_eq_true, if_false] at h4
        cases h4
        rcases List.mem_cons.mp hu with rfl | hu2
        · exact ⟨ht, hms.symm, hsc⟩
        · exact ih htail u hu2

/-- One successful fetch attempt only returns truthy, unseen, scalar
URLs (filtered against the seen set at the moment of the call). -/
theorem fetchAttempt_sound {s : State} {body : Json} {s1 : State}
    {urls : List Json} (h : fetchAttempt s body = .ok (s1, urls)) :
    ∀ u ∈ urls,
      pyTruthy u = true ∧ setMem u s.processed_urls = false ∧
        isScalar u = true := by
  unfold fetchAttempt at h
  obtain ⟨sa, hup, h2⟩ := bindEqOk h
  obtain ⟨cond, hcond, h3⟩ := bindEqOk h2
  cases cond with
  | false =>
    simp only [Bool.false_eq_true, if_false] at h3
    cases h3
    intro u hu
    cases hu
  | true =>
    simp only [if_pos] at h3
    obtain ⟨items, hit, h4⟩ := bindEqOk h3
    obtain ⟨itemList, hil, h5⟩ := bindEqOk h4
    obtain ⟨us, hus, h6⟩ := bindEqOk h5
    rw [updatePagination_processed hup] at hus
    cases h6
    exact extractUrls_sound hus

/-- The whole retry loop only returns truthy, unseen, scalar URLs;
the seen set it filters against is the one held at the moment
`fetch_images_batch` was called (retry iterations do not change it). -/
theorem fetchLoop_sound {n : Nat} {s : State} {w : List NetResult}
    {s1 : State} {urls : List Json} {w1 : List NetResult}
    (h : fetchLoop s w n = .ok (s1, urls, w1)) :
    ∀ u ∈ urls,
      pyTruthy u = true ∧ setMem u s.processed_urls = false ∧
        isScalar u = true := by
  induction n generalizing w with
  | zero =>
    cases h
    intro u hu
    cases hu
  | succ n ih =>
    cases w with
    | nil => exact ih h
    | cons r w2 =>
      cases r with
      | err => exact ih h
      | ok body =>
        rw [fetchLoop_cons_ok] at h
        cases hfa : fetchAttempt s body with
        | error e => rw [hfa] at h; cases h
        | ok out =>
          rw [hfa] at h
          obtain ⟨sx, urlsx⟩ := out
          cases h
          exact fetchAttempt_sound hfa

/-- C1: every URL in the sequence returned by a successful
`fetch_images_batch` call is non-empty and was not a member of
`processed_urls` at the moment of the call (the call itself never
mutates `processed_urls`, so "at the moment of the call" is
unambiguous); hence a URL in the seen set when a fetch starts is never
part of that fetch's result. -/
theorem c1_batch_is_new (s : State) (w : List NetResult) (s1 : State)
    (urls : List Json) (w1 : List NetResult)
    (h : fetchImagesBatch s w = .ok (s1, urls, w1)) :
    ∀ u ∈ urls, u ≠ Json.str "" ∧ setMem u s.processed_urls = false := by
  intro u hu
  obtain ⟨ht, hm, _⟩ := fetchLoop_sound h u hu
  refine ⟨?_, hm⟩
  intro he
  subst he
  simp [pyTruthy] at ht

/-- Witness for C1 at a concrete input: with seen set `{"b"}` and a
response offering urls "a", "b" and "", the batch is exactly `["a"]`,
and "a" is non-empty and unseen. -/
theorem c1_witness :
    Json.str "a" ≠ Json.str "" ∧
      setMem (Json.str "a")
        (⟨1, true, [Json.str "b"]⟩ : State).processed_urls = false :=
  c1_batch_is_new ⟨1, true, [Json.str "b"]⟩
    [NetResult.ok (Json.obj
      [("metadata", Json.obj [("totalPages", Json.num 5)]),
        ("items", Json.arr [Json.obj [("url", Json.str "a")],
          Json.obj [("url", Json.str "b")],
          Json.obj [("url", Json.str "")]])])]
    ⟨2, true, [Json.str "b"]⟩ [Json.str "a"] [] rfl
    (Json.str "a") (List.mem_cons_self _ _)

/-! ## C8 -/

/-- Reflexivity of the scalar equality used by set membership. -/
theorem pyEqScalar_refl {u : Json} (hs : isScalar u = true) :
    pyEqScalar u u = true := by
  cases u <;> simp_all [isScalar, pyEqScalar]

/-- After `setAdd`, the added scalar is a member. -/
theorem setMem_setAdd_self {seen : List Json} {u : Json}
    (hs : isScalar u = true) : setMem u (setAdd seen u) = true := by
  unfold setAdd
  cases h : setMem u seen with
  | true => simp [h]
  | false =>
    simp only [Bool.false_eq_true, if_false, setMem, List.any_cons]
    rw [pyEqScalar_refl hs]
    rfl

/-- A `getD` at an index reduced modulo the length of a non-empty list
is a member of the list. -/
theorem getD_mod_mem (l : List Json) (n : Nat) (h : l ≠ []) :
    l.getD (n % l.length) Json.null ∈ l := by
  have hlen : 0 < l.length := List.length_pos.mpr h
  have hlt : n % l.length < l.length := Nat.mod_lt _ hlen
  rw [List.getD_eq_getElem l Json.null hlt]
  exact List.getElem_mem hlt

/-- Counterexample to C8 as stated: `send_to_endpoint` itself mutates
`processed_urls` (civitai.py line 114).  Called on a state with an
empty seen set, a successful send returns with the URL already
inserted, so the forwarder does not leave `SeenSet` untouched and the
registration is not performed by the caller. -/
theorem c8_counterexample :
    (sendToEndpoint ⟨1, true, []⟩ (Json.str "a")
        [NetResult.ok Json.null]).1.processed_urls = [Json.str "a"] ∧
      (⟨1, true, []⟩ : State).processed_urls = [] :=
  ⟨rfl, rfl⟩

/-- C8 amended: after every successful forward the URL is indeed
registered into `processed_urls`, but the registration happens inside
`send_to_endpoint` itself (line 114), not in the caller: the final
state of `process` is exactly the pre-send state with the forwarded
URL `setAdd`-ed by the send, and `process` performs no further
mutation after the send returns. -/
theorem c8_send_registers_url (s : State) (pick : Nat)
    (w : List NetResult) (r : ProcResult) (u : Json)
    (h : process s pick w = .ok r) (hf : r.forwarded = [u])
    (hok : r.sendOk = some true) :
    r.state.processed_urls =
        setAdd (evictionStep s).processed_urls u ∧
      setMem u r.state.processed_urls = true := by
  unfold process at h
  cases hfb : fetchImagesBatch (evictionStep s) w with
  | error e => rw [hfb] at h; cases h
  | ok out =>
    obtain ⟨s1, urls, w1⟩ := out
    rw [hfb] at h
    dsimp only at h
    by_cases hne : urls.isEmpty
    · rw [if_pos hne] at h
      cases h
      cases hf
    · rw [if_neg hne] at h
      cases h
      simp only at hf hok
      injection hf with h1 h2
      subst h1
      have hmem : urls.getD (pick % urls.length) Json.null ∈ urls :=
        getD_mod_mem urls pick (by simpa using hne)
      have hsc := (fetchLoop_sound hfb _ hmem).2.2
      have hsendT : (sendToEndpoint s1
          (urls.getD (pick % urls.length) Json.null) w1).2.1 = true := by
        simpa using congrArg (fun o => o.getD false) hok
      have hstate := sendLoop_true (n := MAX_RETRIES) hsendT
      simp only [sendToEndpoint]
      rw [hstate]
      have hproc : s1.processed_urls = (evictionStep s).processed_urls :=
        fetchLoop_processed hfb
      rw [hproc]
      exact ⟨rfl, setMem_setAdd_self hsc⟩

/-- Witness for C8 amended, at a concrete input: a successful cycle
forwards "a" and ends with `processed_urls` equal to the pre-send set
plus "a", inserted by the send itself. -/
theorem c8_witness :
    (⟨⟨1, true, [Json.str "a"]⟩, [], [Json.str "a"], [Json.str "a"],
        some true⟩ : ProcResult).state.processed_urls =
        setAdd (evictionStep initialState).processed_urls (Json.str "a") ∧
      setMem (Json.str "a")
        (⟨⟨1, true, [Json.str "a"]⟩, [], [Json.str "a"], [Json.str "a"],
          some true⟩ : ProcResult).state.processed_urls = true :=
  c8_send_registers_url initialState 0
    [NetResult.ok (Json.obj
      [("items", Json.arr [Json.obj [("url", Json.str "a")]])]),
      NetResult.ok Json.null]
    ⟨⟨1, true, [Json.str "a"]⟩, [], [Json.str "a"], [Json.str "a"],
      some true⟩
    (Json.str "a") rfl rfl rfl

/-! ## C6 -/

/-- Counterexample to C6 as stated: a successful HTTP response whose
body is the valid JSON document `{"items": [42]}` makes
`item.get('url')` raise `AttributeError` (an `int` has no `.get`),
which is not a `requests.exceptions.RequestException` and therefore
escapes `fetch_images_batch` and `process` to the scheduler layer. -/
theorem c6_counterexample :
    process initialState 0
        [NetResult.ok (Json.obj [("items", Json.arr [Json.num 42])])] =
      .error PyErr.attributeError := rfl

/-- On a well-shaped body the pagination-update block cannot raise. -/
theorem updatePagination_wf {b : Json} (s : State) (hb : wfBody b = true) :
    ∃ s1, updatePagination s b = .ok s1 := by
  cases b with
  | obj fs =>
    have hm : (match objLookup fs "metadata" with
        | none => true
        | some m => wfMeta m) = true := by
      unfold wfBody at hb
      exact ((Bool.and_eq_true _ _).mp hb).1
    unfold updatePagination
    cases hmd : objLookup fs "metadata" with
    | none =>
      rw [show pyIn "metadata" (Json.obj fs) = .ok false by
        simp [pyIn, hmd], okBind]
      exact ⟨s, rfl⟩
    | some m =>
      rw [hmd] at hm
      dsimp only at hm
      rw [show pyIn "metadata" (Json.obj fs) = .ok true by
        simp [pyIn, hmd], okBind]
      simp only [if_pos]
      rw [show pyIndex (Json.obj fs) "metadata" = .ok m by
        simp [pyIndex, hmd], okBind]
      cases m with
      | obj mf =>
        unfold wfMeta at hm
        dsimp only at hm
        cases htp : objLookup mf "totalPages" with
        | none =>
          rw [show pyDictGet (Json.obj mf) "totalPages" (Json.num 1) =
              .ok (Json.num 1) by simp [pyDictGet, htp], okBind]
          rw [show pyGE (Json.num s.current_page) (Json.num 1) =
              .ok (decide (s.current_page ≥ 1)) from rfl, okBind]
          cases decide (s.current_page ≥ 1) <;> exact ⟨_, rfl⟩
        | some t =>
          rw [htp] at hm
          cases t with
          | num n =>
            rw [show pyDictGet (Json.obj mf) "totalPages" (Json.num 1) =
                .ok (Json.num n) by simp [pyDictGet, htp], okBind]
            rw [show pyGE (Json.num s.current_page) (Json.num n) =
                .ok (decide (s.current_page ≥ n)) from rfl, okBind]
            cases decide (s.current_page ≥ n) <;> exact ⟨_, rfl⟩
          | null => exact absurd hm (by simp)
          | bool b2 => exact absurd hm (by simp)
          | str t2 => exact absurd hm (by simp)
          | arr ys => exact absurd hm (by simp)
          | obj gs => exact absurd hm (by simp)
      | null => simp [wfMeta] at hm
      | bool b => simp [wfMeta] at hm
      | num n => simp [wfMeta] at hm
      | str t => simp [wfMeta] at hm
      | arr xs => simp [wfMeta] at hm
  | null => simp [wfBody] at hb
  | bool b2 => simp [wfBody] at hb
  | num n => simp [wfBody] at hb
  | str t => simp [wfBody] at hb
  | arr xs => simp [wfBody] at hb

/-- On well-shaped items the filtering loop cannot raise. -/
theorem extractUrls_wf (seen : List Json) :
    ∀ xs : List Json, (∀ i ∈ xs, wfItem i = true) →
      ∃ urls, extractUrls seen xs = .ok urls := by
  intro xs
  induction xs with
  | nil => intro _; exact ⟨[], rfl⟩
  | cons item rest ih =>
    intro hf
    obtain ⟨tail, htail⟩ := ih (fun i hi => hf i (List.mem_cons_of_mem _ hi))
    have hitem := hf item (List.mem_cons_self _ _)
    cases item with
    | obj ifs =>
      unfold wfItem at hitem
      dsimp only at hitem
      have hu : ∃ u, pyDictGet (Json.obj ifs) "url" Json.null = .ok u ∧
          isScalar u = true := by
        cases hul : objLookup ifs "url" with
        | none => exact ⟨Json.null, by simp [pyDictGet, hul], rfl⟩
        | some u =>
          rw [hul] at hitem
          cases u with
          | null => exact ⟨Json.null, by simp [pyDictGet, hul], rfl⟩
          | str t => exact ⟨Json.str t, by simp [pyDictGet, hul], rfl⟩
          | bool b2 => exact absurd hitem (by simp [wfUrl])
          | num n => exact absurd hitem (by simp [wfUrl])
          | arr ys => exact absurd hitem (by simp [wfUrl])
          | obj gs => exact absurd hitem (by simp [wfUrl])
      obtain ⟨u, hget, hsc⟩ := hu
      unfold extractUrls
      rw [hget, okBind]
      cases ht : pyTruthy u with
      | false =>
        simp only [Bool.false_eq_true, if_false]
        exact ⟨tail, htail⟩
      | true =>
        simp only [if_pos]
        have hmem : pyMem u seen = .ok (setMem u seen) := by
          cases u <;> first | rfl | (simp [isScalar] at hsc)
        rw [hmem, okBind, htail, okBind]
        exact ⟨_, rfl⟩
    | null => simp [wfItem] at hitem
    | bool b2 => simp [wfItem] at hitem
    | num n => simp [wfItem] at hitem
    | str t => simp [wfItem] at hitem
    | arr ys => simp [wfItem] at hitem

/-- On a well-shaped body one fetch attempt cannot raise. -/
theorem fetchAttempt_wf {b : Json} (s : State) (hb : wfBody b = true) :
    ∃ out, fetchAttempt s b = .ok out := by
  obtain ⟨s1, hs1⟩ := updatePagination_wf s hb
  cases b with
  | obj fs =>
    have hi : (match objLookup fs "items" with
        | none => true
        | some v => wfItemsVal v) = true := by
      unfold wfBody at hb
      exact ((Bool.and_eq_true _ _).mp hb).2
    unfold fetchAttempt
    rw [hs1, okBind]
    cases hit : objLookup fs "items" with
    | none =>
      rw [show itemsCond (Json.obj fs) = .ok false by
        unfold itemsCond
        rw [show pyIn "items" (Json.obj fs) = .ok false by
          simp [pyIn, hit], okBind]
        rfl, okBind]
      exact ⟨_, rfl⟩
    | some v =>
      rw [hit] at hi
      dsimp only at hi
      cases v with
      | arr xs =>
        have hall : ∀ i ∈ xs, wfItem i = true := by
          intro i hmem
          exact List.all_eq_true.mp hi i hmem
        rw [show itemsCond (Json.obj fs) = .ok (decide ((xs.length : Int) > 0)) by
          unfold itemsCond
          rw [show pyIn "items" (Json.obj fs) = .ok true by
            simp [pyIn, hit], okBind]
          simp only [if_pos]
          rw [show pyIndex (Json.obj fs) "items" = .ok (Json.arr xs) by
            simp [pyIndex, hit], okBind]
          rfl, okBind]
        cases hd : decide ((xs.length : Int) > 0) with
        | false =>
          simp only [Bool.false_eq_true, if_false]
          exact ⟨_, rfl⟩
        | true =>
          simp only [if_pos]
          rw [show pyIndex (Json.obj fs) "items" = .ok (Json.arr xs) by
            simp [pyIndex, hit], okBind]
          rw [show pyIter (Json.arr xs) = .ok xs from rfl, okBind]
          obtain ⟨urls, hurls⟩ := extractUrls_wf s1.processed_urls xs hall
          rw [hurls, okBind]
          exact ⟨_, rfl⟩
      | null => simp [wfItemsVal] at hi
      | bool b2 => simp [wfItemsVal] at hi
      | num n => simp [wfItemsVal] at hi
      | str t => simp [wfItemsVal] at hi
      | obj gs => simp [wfItemsVal] at hi
  | null => simp [wfBody] at hb
  | bool b2 => simp [wfBody] at hb
  | num n => simp [wfBody] at hb
  | str t => simp [wfBody] at hb
  | arr xs => simp [wfBody] at hb

/-- If every successful response in the script is well-shaped, the
retry loop cannot raise. -/
theorem fetchLoop_wf {w : List NetResult}
    (hw : ∀ b, NetResult.ok b ∈ w → wfBody b = true) :
    ∀ (n : Nat) (s : State), ∃ out, fetchLoop s w n = .ok out := by
  induction w with
  | nil =>
    intro n
    induction n with
    | zero => exact fun s => ⟨_, rfl⟩
    | succ n ihn => exact fun s => (fetchLoop_nil s n) ▸ ihn s
  | cons r w2 ihw =>
    intro n s
    cases n with
    | zero => exact ⟨_, rfl⟩
    | succ n =>
      cases r with
      | err =>
        rw [fetchLoop_cons_err]
        exact ihw (fun b hb => hw b (List.mem_cons_of_mem _ hb)) n s
      | ok body =>
        rw [fetchLoop_cons_ok]
        obtain ⟨out, hout⟩ :=
          fetchAttempt_wf s (hw body (List.mem_cons_self _ _))
        rw [hout]
        obtain ⟨s1, urls⟩ := out
        exact ⟨_, rfl⟩

/-- C6 amended: for network/HTTP failures and for well-shaped response
bodies (a JSON object whose optional `metadata` is an object with a
numeric `totalPages` and whose optional `items` is an array of objects
with string-or-null `url` fields) no exception propagates out of
`process()`; but a successful response of unexpected shape (see
`c6_counterexample`) raises a `TypeError`/`AttributeError` that the
`except RequestException` clauses do not catch, and it escapes to the
scheduler layer. -/
theorem c6_no_exception_for_wf_bodies (s : State) (pick : Nat)
    (w : List NetResult)
    (hw : ∀ b, NetResult.ok b ∈ w → wfBody b = true) :
    ∃ r, process s pick w = .ok r := by
  obtain ⟨out, hout⟩ := fetchLoop_wf hw MAX_RETRIES (evictionStep s)
  obtain ⟨s1, urls, w1⟩ := out
  unfold process fetchImagesBatch
  rw [hout]
  dsimp only
  by_cases hne : urls.isEmpty
  · rw [if_pos hne]
    exact ⟨_, rfl⟩
  · rw [if_neg hne]
    exact ⟨_, rfl⟩

/-- Witness for C6 amended at a concrete input: one well-shaped
response; `process` returns normally. -/
theorem c6_witness :
    ∃ r, process initialState 0
        [NetResult.ok (Json.obj
          [("items", Json.arr [Json.obj [("url", Json.str "a")]])])] =
      .ok r :=
  c6_no_exception_for_wf_bodies initialState 0
    [NetResult.ok (Json.obj
      [("items", Json.arr [Json.obj [("url", Json.str "a")]])])]
    (by
      intro b hb
      simp only [List.mem_singleton, NetResult.ok.injEq] at hb
      subst hb
      rfl)

/-! ## C4 -/

theorem urlFor_ne {j k : Nat} (h : ¬j = k) :
    pyEqScalar (urlFor k) (urlFor j) = false := by
  simp only [urlFor, pyEqScalar]
  rw [beq_eq_false_iff_ne]
  intro he
  apply h
  have hd := congrArg String.data he
  have hlen := congrArg List.length hd
  simp only [List.length_replicate] at hlen
  omega

theorem setMem_seenFor (k : Nat) : setMem (urlFor k) (seenFor k) = false := by
  simp only [setMem, seenFor]
  rw [List.any_eq_false]
  intro x hx
  simp only [List.mem_map, List.mem_reverse] at hx
  obtain ⟨j, hj, rfl⟩ := hx
  have hjk : j < k := by
    simp only [List.mem_range'] at hj
    omega
  simp [urlFor_ne (by omega : ¬j = k)]

theorem seenFor_length (k : Nat) : (seenFor k).length = k := by
  simp [seenFor]

theorem seenFor_succ (k : Nat) : seenFor (k + 1) = urlFor k :: seenFor k := by
  simp [seenFor, List.range'_concat]

theorem urlFor_truthy (k : Nat) : pyTruthy (urlFor k) = true := by
  simp [urlFor, pyTruthy, List.replicate]

theorem fetchImagesBatch_cons_ok (s : State) (body : Json)
    (w : List NetResult) :
    fetchImagesBatch s (NetResult.ok body :: w) =
      match fetchAttempt s body with
      | .error e => .error e
      | .ok (s1, urls) => .ok (s1, urls, w) := rfl

theorem sendToEndpoint_cons_ok (s : State) (u : Json) (body : Json)
    (w : List NetResult) :
    sendToEndpoint s u (NetResult.ok body :: w) =
      ({ s with processed_urls := setAdd s.processed_urls u }, true, w) := rfl

/-- One driver-script cycle, fetch attempt level: page advances, the
fresh URL is returned. -/
theorem c4_fetchAttempt_step (k : Nat) (hk : ¬(k : Int) + 1 ≥ 5000) :
    fetchAttempt (stateFor k) (bodyFor k) =
      .ok (⟨(k : Int) + 1 + 1, true, seenFor k⟩, [urlFor k]) := by
  have hup : updatePagination (stateFor k) (bodyFor k) =
      .ok ⟨(k : Int) + 1 + 1, true, seenFor k⟩ := by
    unfold updatePagination
    rw [show pyIn "metadata" (bodyFor k) = .ok true from rfl, okBind]
    simp only [if_pos]
    rw [show pyIndex (bodyFor k) "metadata" =
        .ok (Json.obj [("totalPages", Json.num 5000)]) from rfl, okBind]
    rw [show pyDictGet (Json.obj [("totalPages", Json.num 5000)]) "totalPages"
        (Json.num 1) = .ok (Json.num 5000) from rfl, okBind]
    rw [show pyGE (Json.num (stateFor k).current_page) (Json.num 5000) =
        .ok (decide ((k : Int) + 1 ≥ 5000)) from rfl, okBind]
    rw [decide_eq_false hk]
    simp only [Bool.false_eq_true, if_false]
    rfl
  have hex : extractUrls (seenFor k) [Json.obj [("url", urlFor k)]] =
      .ok [urlFor k] := by
    unfold extractUrls
    rw [show pyDictGet (Json.obj [("url", urlFor k)]) "url" Json.null =
        .ok (urlFor k) from rfl, okBind]
    rw [urlFor_truthy]
    simp only [if_pos]
    rw [show pyMem (urlFor k) (seenFor k) =
        .ok (setMem (urlFor k) (seenFor k)) from by
      unfold urlFor pyMem; rfl, okBind]
    rw [setMem_seenFor]
    rw [show extractUrls (seenFor k) [] = .ok [] from rfl, okBind]
    rfl
  unfold fetchAttempt
  rw [hup, okBind]
  rw [show itemsCond (bodyFor k) = .ok true from rfl, okBind]
  simp only [if_pos]
  rw [show pyIndex (bodyFor k) "items" =
      .ok (Json.arr [Json.obj [("url", urlFor k)]]) from rfl, okBind]
  rw [show pyIter (Json.arr [Json.obj [("url", urlFor k)]]) =
      .ok [Json.obj [("url", urlFor k)]] from rfl, okBind]
  rw [hex, okBind]
  rfl

/-- One driver-script cycle, `process` level: the fresh URL is fetched
and forwarded, `has_more_pages` stays true, the seen set grows by
one. -/
theorem c4_process_step (k : Nat) (hk : ¬(k : Int) + 1 ≥ 5000) :
    process (stateFor k) 0 [.ok (bodyFor k), .ok .null] =
      .ok ⟨stateFor (k + 1), [], [urlFor k], [urlFor k], some true⟩ := by
  unfold process
  rw [show evictionStep (stateFor k) = stateFor k from rfl]
  rw [fetchImagesBatch_cons_ok, c4_fetchAttempt_step k hk]
  dsimp only
  rw [show ([urlFor k].isEmpty) = false from rfl]
  simp only [Bool.false_eq_true, if_false]
  rw [show ([urlFor k].getD (0 % [urlFor k].length) Json.null) = urlFor k
    from rfl]
  rw [sendToEndpoint_cons_ok]
  dsimp only
  rw [show setAdd (seenFor k) (urlFor k) = urlFor k :: seenFor k from by
    unfold setAdd
    rw [setMem_seenFor]
    simp]
  rw [← seenFor_succ]
  have hs : (⟨(k : Int) + 1 + 1, true, seenFor (k + 1)⟩ : State) =
      stateFor (k + 1) := by
    unfold stateFor
    have hcast : ((k + 1 : Nat) : Int) + 1 = (k : Int) + 1 + 1 := by
      push_cast
      ring
    rw [hcast]
  rw [hs]

/-- Running the first `n` driver cycles from cycle `k` grows the seen
set one URL per cycle and never clears `has_more_pages`. -/
theorem c4_run : ∀ (n k : Nat), k + n ≤ 2000 →
    runCycles (stateFor k) ((List.range' k n).map cycleFor) =
      .ok (stateFor (k + n)) := by
  intro n
  induction n with
  | zero => intro k _; rfl
  | succ n ih =>
    intro k hk
    rw [List.range'_succ, List.map_cons]
    unfold runCycles
    simp only [cycleFor]
    rw [c4_process_step k (by omega)]
    dsimp only
    rw [ih (k + 1) (by omega)]
    exact congrArg (fun m => Except.ok (stateFor m)) (by omega)

/-- Counterexample to C4 as stated: after the 1001 driver cycles of
`c4Script` (reachable from the freshly constructed fetcher), the seen
set holds 1001 URLs while `has_more_pages` is true, so the eviction
block (guarded by `if not self.has_more_pages`, civitai.py line 128)
does not fire: at the start of the 1002nd `process()` invocation the
state handed to the fetch — `evictionStep` of the current state —
still carries 1001 > 1000 processed URLs. -/
theorem stateFor_processed (k : Nat) :
    (stateFor k).processed_urls = seenFor k := rfl

theorem evictionStep_stateFor (k : Nat) :
    evictionStep (stateFor k) = stateFor k := rfl

theorem c4_counterexample :
    runCycles initialState c4Script = .ok (stateFor 1001) ∧
      (stateFor 1001).has_more_pages = true ∧
      (stateFor 1001).processed_urls.length = 1001 ∧
      1000 < ((evictionStep (stateFor 1001)).processed_urls).length := by
  refine ⟨?_, rfl, ?_, ?_⟩
  · exact c4_run 1001 0 (by omega)
  · rw [stateFor_processed, seenFor_length]
  · rw [evictionStep_stateFor, stateFor_processed, seenFor_length]
    omega

/-- C4 amended: the eviction step bounds the seen set only at cycles
that begin with `has_more_pages = False` (the pagination-wrap cycles):
at such a cycle, after the eviction block and before the fetch, the
cardinality is at most 1000 (cleared entirely when above 1000).  At
cycles beginning with `has_more_pages = True` no eviction happens and
the set can exceed 1000 (see `c4_counterexample`). -/
theorem c4_eviction_on_wrap (s : State) (h : s.has_more_pages = false) :
    ((evictionStep s).processed_urls).length ≤ 1000 := by
  unfold evictionStep
  rw [h]
  simp only [Bool.not_false, if_pos]
  by_cases hl : s.processed_urls.length > 1000
  · rw [if_pos hl]
    simp
  · rw [if_neg hl]
    show s.processed_urls.length ≤ 1000
    omega

/-- Witness for C4 amended at a concrete input: a wrapped state with
one processed URL keeps it, staying within the bound. -/
theorem c4_witness :
    ((evictionStep ⟨5, false, [Json.str "a"]⟩).processed_urls).length
      ≤ 1000 :=
  c4_eviction_on_wrap ⟨5, false, [Json.str "a"]⟩ rfl

/-! ## C5 -/

/-- C5 amended: every `process()` invocation calls the forwarder at
most once, with a URL drawn from this cycle's batch; when the batch is
empty it returns with no forward attempt and adds nothing to
`processed_urls` — the set is either untouched or, when the
start-of-cycle eviction block fired on an oversized set, cleared
(see `c5_counterexample` for the cleared case). -/
theorem c5_at_most_one_forward (s : State) (pick : Nat)
    (w : List NetResult) (r : ProcResult)
    (h : process s pick w = .ok r) :
    r.forwarded.length ≤ 1 ∧ (∀ u ∈ r.forwarded, u ∈ r.batch) ∧
      (r.batch = [] → r.forwarded = [] ∧ r.sendOk = none ∧
        (r.state.processed_urls = s.processed_urls ∨
          r.state.processed_urls = [])) := by
  unfold process at h
  cases hfb : fetchImagesBatch (evictionStep s) w with
  | error e => rw [hfb] at h; cases h
  | ok out =>
    obtain ⟨s1, urls, w1⟩ := out
    rw [hfb] at h
    dsimp only at h
    by_cases hne : urls.isEmpty
    · rw [if_pos hne] at h
      cases h
      refine ⟨by simp, by simp, fun _ => ⟨rfl, rfl, ?_⟩⟩
      have h1 : s1.processed_urls = (evictionStep s).processed_urls :=
        fetchLoop_processed hfb
      rcases evictionStep_processed s with h2 | h2
      · exact Or.inl (h1.trans h2)
      · exact Or.inr (h1.trans h2)
    · rw [if_neg hne] at h
      cases h
      refine ⟨by simp, ?_, ?_⟩
      · intro u hu
        simp only [List.mem_singleton] at hu
        subst hu
        exact getD_mod_mem urls pick (by simpa using hne)
      · intro hbatch
        dsimp only at hbatch
        rw [hbatch] at hne
        exact absurd rfl hne

/-- Witness for C5 amended at a concrete input: a wrapped-state cycle
whose response has no items forwards nothing and registers nothing. -/
theorem c5_witness :
    (⟨⟨1, false, []⟩, [], [], [], none⟩ : ProcResult).forwarded.length ≤ 1 ∧
      (∀ u ∈ (⟨⟨1, false, []⟩, [], [], [],
        none⟩ : ProcResult).forwarded,
        u ∈ (⟨⟨1, false, []⟩, [], [], [], none⟩ : ProcResult).batch) ∧
      ((⟨⟨1, false, []⟩, [], [], [], none⟩ : ProcResult).batch = [] →
        (⟨⟨1, false, []⟩, [], [], [], none⟩ : ProcResult).forwarded = [] ∧
        (⟨⟨1, false, []⟩, [], [], [], none⟩ : ProcResult).sendOk = none ∧
        ((⟨⟨1, false, []⟩, [], [], [],
            none⟩ : ProcResult).state.processed_urls =
            (⟨1, false, []⟩ : State).processed_urls ∨
          (⟨⟨1, false, []⟩, [], [], [],
            none⟩ : ProcResult).state.processed_urls = [])) :=
  c5_at_most_one_forward ⟨1, false, []⟩ 0 [.ok bodyEmptyItems]
    ⟨⟨1, false, []⟩, [], [], [], none⟩ rfl

theorem runCycles_cons (s : State) (c : CycleInput)
    (rest : List CycleInput) :
    runCycles s (c :: rest) =
      match process s c.pick c.world with
      | .error e => .error e
      | .ok r => runCycles r.state rest := rfl

/-- Sequencing lemma for scripted invocations. -/
theorem runCycles_append (l1 : List CycleInput) :
    ∀ (s s1 : State) (l2 : List CycleInput), runCycles s l1 = .ok s1 →
      runCycles s (l1 ++ l2) = runCycles s1 l2 := by
  induction l1 with
  | nil =>
    intro s s1 l2 h
    cases h
    rfl
  | cons c rest ih =>
    intro s s1 l2 h
    rw [runCycles_cons] at h
    rw [List.cons_append, runCycles_cons]
    cases hp : process s c.pick c.world with
    | error e =>
      rw [hp] at h
      dsimp only at h
      cases h
    | ok r =>
      rw [hp] at h
      dsimp only at h ⊢
      exact ih _ _ _ h

/-- The wrap-around cycle at a generic cycle index: on a 1-page
listing the pagination resets (page 1, flag cleared) while one more
fresh URL is forwarded and registered. -/
theorem wrap_process_step (k : Nat) :
    process (stateFor k) 0 [.ok (bodyWrapFor k), .ok .null] =
      .ok ⟨⟨1, false, urlFor k :: seenFor k⟩, [],
        [urlFor k], [urlFor k], some true⟩ := by
  have hup : updatePagination (stateFor k) (bodyWrapFor k) =
      .ok ⟨1, false, seenFor k⟩ := by
    unfold updatePagination
    rw [show pyIn "metadata" (bodyWrapFor k) = .ok true from rfl, okBind]
    simp only [if_pos]
    rw [show pyIndex (bodyWrapFor k) "metadata" =
        .ok (Json.obj [("totalPages", Json.num 1)]) from rfl, okBind]
    rw [show pyDictGet (Json.obj [("totalPages", Json.num 1)]) "totalPages"
        (Json.num 1) = .ok (Json.num 1) from rfl, okBind]
    rw [show pyGE (Json.num (stateFor k).current_page) (Json.num 1) =
        .ok (decide ((k : Int) + 1 ≥ 1)) from rfl, okBind]
    rw [decide_eq_true (by omega : (k : Int) + 1 ≥ 1)]
    rfl
  have hex : extractUrls (seenFor k) [Json.obj [("url", urlFor k)]] =
      .ok [urlFor k] := by
    unfold extractUrls
    rw [show pyDictGet (Json.obj [("url", urlFor k)]) "url" Json.null =
        .ok (urlFor k) from rfl, okBind]
    rw [urlFor_truthy]
    simp only [if_pos]
    rw [show pyMem (urlFor k) (seenFor k) =
        .ok (setMem (urlFor k) (seenFor k)) from by
      unfold urlFor pyMem; rfl, okBind]
    rw [setMem_seenFor]
    rw [show extractUrls (seenFor k) [] = .ok [] from rfl, okBind]
    rfl
  have hfa : fetchAttempt (stateFor k) (bodyWrapFor k) =
      .ok (⟨1, false, seenFor k⟩, [urlFor k]) := by
    unfold fetchAttempt
    rw [hup, okBind]
    rw [show itemsCond (bodyWrapFor k) = .ok true from rfl, okBind]
    simp only [if_pos]
    rw [show pyIndex (bodyWrapFor k) "items" =
        .ok (Json.arr [Json.obj [("url", urlFor k)]]) from rfl, okBind]
    rw [show pyIter (Json.arr [Json.obj [("url", urlFor k)]]) =
        .ok [Json.obj [("url", urlFor k)]] from rfl, okBind]
    rw [hex, okBind]
    rfl
  unfold process
  rw [evictionStep_stateFor k]
  rw [fetchImagesBatch_cons_ok, hfa]
  dsimp only
  rw [show ([urlFor k].isEmpty) = false from rfl]
  simp only [Bool.false_eq_true, if_false]
  rw [show ([urlFor k].getD (0 % [urlFor k].length) Json.null) =
    urlFor k from rfl]
  rw [sendToEndpoint_cons_ok]
  dsimp only
  rw [show setAdd (seenFor k) (urlFor k) = urlFor k :: seenFor k from by
    unfold setAdd
    rw [setMem_seenFor]
    simp]

/-- The cycle after a wrap with an oversized seen set: the eviction
block fires and clears the set, the response has no items, the batch
is empty and no forward happens. -/
theorem empty_step_oversized (l : List Json) (hl : l.length > 1000) :
    process ⟨1, false, l⟩ 0 [.ok bodyEmptyItems] =
      .ok ⟨⟨1, false, []⟩, [], [], [], none⟩ := by
  have hev : evictionStep ⟨1, false, l⟩ = ⟨1, true, []⟩ := by
    unfold evictionStep
    rw [if_pos (by rfl)]
    rw [if_pos (by exact hl)]
  unfold process
  rw [hev]
  rw [fetchImagesBatch_cons_ok]
  rw [show fetchAttempt ⟨1, true, []⟩ bodyEmptyItems =
      .ok (⟨1, false, []⟩, []) from rfl]
  rfl

/-- Counterexample to C5 as stated: a reachable invocation of
`process()` whose fetched batch is empty, which forwards nothing —
yet mutates `SeenSet`: the start-of-cycle eviction block clears the
1002 processed URLs before the fetch, so "returns without mutating
SeenSet" fails. -/
theorem c5_counterexample :
    runCycles initialState (c4Script ++ [cycleWrap]) = .ok stateWrapped ∧
      stateWrapped.processed_urls.length = 1002 ∧
      process stateWrapped 0 [.ok bodyEmptyItems] =
        .ok ⟨⟨1, false, []⟩, [], [], [], none⟩ ∧
      (⟨1, false, []⟩ : State).processed_urls ≠
        stateWrapped.processed_urls := by
  refine ⟨?_, ?_, ?_, ?_⟩
  · rw [runCycles_append c4Script initialState (stateFor 1001) [cycleWrap]
      (c4_run 1001 0 (by omega))]
    rw [runCycles_cons]
    rw [show (cycleWrap.pick) = 0 from rfl,
      show (cycleWrap.world) = [.ok (bodyWrapFor 1001), .ok .null] from rfl]
    rw [wrap_process_step 1001]
    dsimp only
    rfl
  · rw [show stateWrapped.processed_urls =
      urlFor 1001 :: seenFor 1001 from rfl]
    rw [List.length_cons, seenFor_length]
  · rw [show stateWrapped = (⟨1, false,
      urlFor 1001 :: seenFor 1001⟩ : State) from rfl]
    exact empty_step_oversized (urlFor 1001 :: seenFor 1001)
      (by rw [List.length_cons, seenFor_length]; omega)
  · rw [show stateWrapped.processed_urls =
      urlFor 1001 :: seenFor 1001 from rfl]
    simp
